import Mathlib

/-!
Verification of the arena-cache core (Go) against its natural-language
specification.  The definitions below are a shallow embedding of the Go
source: each definition's doc comment names the source function it
transcribes.  Machine integers are modelled as `Nat`/`Int` with explicit
two's-complement truncation where Go converts between widths; Go panics
(nil-pointer dereference, nil-map write, guard panics, and the failed
`e.(unsafe.Pointer)` type assertions in `Clock.Insert`/`Clock.Remove`,
whose call sites box a typed `*entry[K,V]`) are modelled by
`Option`/dedicated result constructors; the CLOCK-Pro eviction loop, whose
Go form is a `for` loop that can diverge on unreachable states, is given a
fuel parameter, `none` meaning the loop did not finish.
-/

set_option autoImplicit false

deriving instance DecidableEq for Except

namespace ArenaCache

/-- Truncation of a Go `int` to `uint32`, as in `uint32(weight)` in
`shard.put` (src/pkg/cache.go): two's-complement wrap, i.e. the value
modulo 2^32. -/
def u32 (w : Int) : Nat := (Int.emod w 4294967296).toNat

/-- CLOCK-Pro state constant `stateCold = 0b00` (src/unnamed/part_003). -/
def stateCold : Nat := 0
/-- CLOCK-Pro state constant `stateHot = 0b01` (src/unnamed/part_003). -/
def stateHot : Nat := 1
/-- CLOCK-Pro state constant `stateTest = 0b10` (src/unnamed/part_003). -/
def stateTest : Nat := 2
/-- CLOCK-Pro reference flag `refBit = 0b10000000` (src/unnamed/part_003). -/
def refBit : Nat := 128

/-- The cache entry metadata (`entry[K, V]` in src/pkg/cache.go):
fingerprint `h` (uint64), the arena value pointer `vptr` (`none` models a
nil pointer), the original key, the `uint32` weight, the owning generation
id and the CLOCK-Pro state byte. -/
structure Entry (K V : Type) where
  h : Nat
  vptr : Option V
  key : K
  weight : Nat
  genID : Nat
  state : Nat
  deriving DecidableEq, Repr

/-- All entry fields except the CLOCK-Pro state byte; the eviction loop and
the generation-freed sweep mutate only the state byte, which this
projection makes precise. -/
def Entry.core {K V : Type} (e : Entry K V) : Nat × Option V × K × Nat × Nat :=
  (e.h, e.vptr, e.key, e.weight, e.genID)

/-- The CLOCK-Pro supervisor (`Clock[K, V]` in src/unnamed/part_003).  The
circular ring of metadata nodes is a list of heap positions whose head is
the hand (`c.head`); `size` is the int64 "used bytes" counter, `capacity`
the per-shard byte budget, and `hasEjectCb` records whether an eviction
callback was registered (`ejectCb != nil`). -/
structure Clock where
  ring : List Nat
  size : Int
  capacity : Int
  hasEjectCb : Bool
  deriving DecidableEq, Repr

/-- A generation (`generation` in src/unnamed/part_006): monotonic id and
the int64 byte accumulator.  The arena itself carries no observable state
beyond the values reachable through entries, so it is not materialised. -/
structure Gen where
  id : Nat
  bytes : Int
  deriving DecidableEq, Repr

/-- The generation ring (`Ring[K, V]` in src/unnamed/part_006): four slots
(`none` = empty slot), the active slot index, the per-generation byte
budget and the id counter. -/
structure GenRing where
  gens : List (Option Gen)
  activeIdx : Nat
  perGenBytes : Int
  idCtr : Nat
  deriving DecidableEq, Repr

/-- A shard (src/pkg/cache.go).  Entries live in `heap` (a growing list
standing for the Go heap; entries are never deallocated, matching the
garbage collector), and both the index and the clock ring refer to entries
by heap position, which models the pointer aliasing between
`shard.index` and the CLOCK-Pro nodes.  `index`, `clock` and `genRing` are
`Option`s because `shard.close` sets the corresponding Go fields to nil. -/
structure Shard (K V : Type) where
  heap : List (Entry K V)
  index : Option (List (Nat × Nat))
  clock : Option Clock
  genRing : Option GenRing
  hits : Nat
  misses : Nat
  evictions : Nat
  deriving DecidableEq, Repr

/-- The cache facade (`Cache[K, V]` in src/pkg/cache.go): the shard list. -/
structure CacheM (K V : Type) where
  shards : List (Shard K V)
  deriving DecidableEq, Repr

/-- Outcome of `New` (src/pkg/cache.go): a validation error with its
message, a Go panic during construction, or the cache. -/
inductive NewResult (K V : Type) where
  | err : String → NewResult K V
  | panicked : NewResult K V
  | ok : CacheM K V → NewResult K V
  deriving DecidableEq, Repr

/-- Lookup in a Go map modelled as an association list (used for
`shard.index : map[uint64]*entry`). -/
def alookup : List (Nat × Nat) → Nat → Option Nat
  | [], _ => none
  | (a, b) :: t, k => if a = k then some b else alookup t k

/-- Go map assignment `m[k] = v`: replace the binding if present, else add
it. -/
def aset : List (Nat × Nat) → Nat → Nat → List (Nat × Nat)
  | [], k, v => [(k, v)]
  | (a, b) :: t, k, v => if a = k then (k, v) :: t else (a, b) :: aset t k v

/-- Go map deletion `delete(m, k)`. -/
def aerase : List (Nat × Nat) → Nat → List (Nat × Nat)
  | [], _ => []
  | (a, b) :: t, k => if a = k then t else (a, b) :: aerase t k

/-- Lookup through the optional index; a read from a nil Go map reports
the key as absent. -/
def idxLookup {K V : Type} (σ : Shard K V) (h : Nat) : Option Nat :=
  match σ.index with
  | none => none
  | some idx => alookup idx h

/-- Models `Clock.callEjectCb` (src/unnamed/part_003): guards on the callback and
the value pointer, reads the value out of the arena — and then returns
without ever invoking the callback (the Go body ends in `_ = val` with a
NOTE that generic value extraction is skipped).  The returned list is the
sequence of callback invocations `(key, value, reason)`; it is always
empty, exactly as in the source. -/
def callEjectCb {K V : Type} (hasCb : Bool) (e : Entry K V) (_reason : Nat) :
    List (K × V × Nat) :=
  if !hasCb then []
  else
    match e.vptr with
    | none => []
    | some _v => []

/-- The body of the `for c.size > c.capacity` loop of
`Clock.evictIfNeeded` (src/unnamed/part_003), with the hand as the list
head: advancing the hand rotates the list, unlinking a TEST node drops the
head without re-appending.  `none` models the loop not finishing: either
fuel ran out, or the ring emptied while `size > capacity` (in Go the hand
then spins forever on the unlinked self-referential TEST node), or a ring
position is dangling (unreachable).  Results are the heap, the ring, the
size and the eviction-callback invocations. -/
def evictGo {K V : Type} (capacity : Int) (hasCb : Bool) :
    Nat → List (Entry K V) → List Nat → Int →
    Option (List (Entry K V) × List Nat × Int × List (K × V × Nat))
  | 0, _, _, _ => none
  | fuel + 1, heap, ring, size =>
    if size ≤ capacity then some (heap, ring, size, [])
    else
      match ring with
      | [] => none
      | eid :: rest =>
        match heap.get? eid with
        | none => none
        | some e =>
          if e.state &&& 3 = stateHot then
            if e.state &&& refBit ≠ 0 then
              evictGo capacity hasCb fuel
                (heap.set eid { e with state := e.state &&& 127 }) (rest ++ [eid]) size
            else
              evictGo capacity hasCb fuel
                (heap.set eid { e with state := stateCold }) (rest ++ [eid]) size
          else if e.state &&& 3 = stateCold then
            if e.state &&& refBit ≠ 0 then
              evictGo capacity hasCb fuel
                (heap.set eid { e with state := stateHot }) (rest ++ [eid]) size
            else
              match evictGo capacity hasCb fuel
                  (heap.set eid { e with state := stateTest }) (rest ++ [eid])
                  (size - (e.weight : Int)) with
              | none => none
              | some (h, r, s, evs) => some (h, r, s, callEjectCb hasCb e 1 ++ evs)
          else if e.state &&& 3 = stateTest then
            evictGo capacity hasCb fuel heap rest size
          else
            evictGo capacity hasCb fuel heap (rest ++ [eid]) size

/-- Fuel that is ample for every reachable state: each node is visited at
most four times (clear ref, demote, evict, unlink) before the loop exits. -/
def evictFuel (ring : List Nat) : Nat := 4 * ring.length + 4

/-- Models `Clock.evictIfNeeded` (src/unnamed/part_003): returns immediately when
`size ≤ capacity` or the ring is empty, otherwise runs the hand loop. -/
def evictIfNeeded {K V : Type} (heap : List (Entry K V)) (ck : Clock) :
    Option (List (Entry K V) × Clock × List (K × V × Nat)) :=
  if ck.size ≤ ck.capacity then some (heap, ck, [])
  else if ck.ring.isEmpty then some (heap, ck, [])
  else
    match evictGo ck.capacity ck.hasEjectCb (evictFuel ck.ring) heap ck.ring ck.size with
    | none => none
    | some (h, r, s, evs) => some (h, { ck with ring := r, size := s }, evs)

/-- The Go `any` argument received by `Clock.Insert` and `Clock.Remove`
(src/unnamed/part_003).  Both begin with the type assertion
`e.(unsafe.Pointer)`, which succeeds only when the box's dynamic type is
exactly `unsafe.Pointer` and panics otherwise.  The box therefore records
the dynamic type: a genuine `unsafe.Pointer` to the entry, or a typed
`*entry[K,V]` pointer — which is what the only call sites actually pass
(`s.clock.Insert(ent)` at src/pkg/cache.go line 213 and
`s.clock.Remove(ent)` at line 230 box the typed pointer directly, so in
the program the assertion always fails). -/
inductive BoxedEntry where
  | unsafePtr : Nat → BoxedEntry
  | typedPtr : Nat → BoxedEntry
  deriving DecidableEq, Repr

/-- Models `Clock.Insert` (src/unnamed/part_003): the body first runs the
`e.(unsafe.Pointer)` type assertion, which panics (`none`) unless the box
really holds an `unsafe.Pointer`.  With a genuine pointer it appends the
entry at the hand's tail, adds its weight to `size`, (re)writes its state
to COLD with the reference bit set, and runs the eviction loop.  Because
the call site in `shard.put` boxes the typed `*entry[K,V]`, the program
never gets past the assertion. -/
def clockInsert {K V : Type} (heap : List (Entry K V)) (ck : Clock) (e : BoxedEntry) :
    Option (List (Entry K V) × Clock × List (K × V × Nat)) :=
  match e with
  | BoxedEntry.typedPtr _ => none
  | BoxedEntry.unsafePtr eid =>
    match heap.get? eid with
    | none => none
    | some ent =>
      evictIfNeeded (heap.set eid { ent with state := stateCold ||| refBit })
        { ck with ring := ck.ring ++ [eid], size := ck.size + (ent.weight : Int) }

/-- Models `Clock.Remove` (src/unnamed/part_003): returns unchanged on an
empty ring (the `c.head == nil` check runs before anything else); on a
non-empty ring the `e.(unsafe.Pointer)` assertion runs next and panics
(`none`) unless the box holds a genuine `unsafe.Pointer` — the call site
in `shard.delete` passes the typed pointer, so the source panics there.
With a genuine pointer, the first node holding the entry has its current
weight subtracted and is unlinked; absent entries are ignored. -/
def clockRemove {K V : Type} (heap : List (Entry K V)) (ck : Clock) (e : BoxedEntry) :
    Option Clock :=
  if ck.ring = [] then some ck
  else
    match e with
    | BoxedEntry.typedPtr _ => none
    | BoxedEntry.unsafePtr eid =>
      if eid ∈ ck.ring then
        some
          { ck with
            ring := ck.ring.erase eid
            size := ck.size - (match heap.get? eid with
              | some e2 => (e2.weight : Int)
              | none => 0) }
      else some ck

/-- The traversal inside `Clock.GenerationEvicted` (src/unnamed/part_003):
every ring node whose entry points at the freed generation and is not
already TEST (`state & stateTest == 0`) is downgraded to TEST and its
weight subtracted from `size`. -/
def genEvictGo {K V : Type} (gid : Nat) :
    List Nat → List (Entry K V) → Int → List (Entry K V) × Int
  | [], heap, size => (heap, size)
  | eid :: rest, heap, size =>
    match heap.get? eid with
    | none => genEvictGo gid rest heap size
    | some e =>
      if e.genID = gid ∧ e.state &&& stateTest = 0 then
        genEvictGo gid rest (heap.set eid { e with state := stateTest })
          (size - (e.weight : Int))
      else genEvictGo gid rest heap size

/-- Models `Clock.GenerationEvicted` (src/unnamed/part_003): no-op when the ring
is empty (`c.head == nil`), otherwise the full-circle traversal. -/
def generationEvicted {K V : Type} (heap : List (Entry K V)) (ring : List Nat)
    (size : Int) (gid : Nat) : List (Entry K V) × Int :=
  match ring with
  | [] => (heap, size)
  | _ => genEvictGo gid ring heap size

/-- The total weight the `GenerationEvicted` sweep will subtract: the
weights of ring entries that point at `gid` and are not yet TEST. -/
def pendingGhostWeight {K V : Type} (heap : List (Entry K V)) (gid : Nat) :
    List Nat → Int
  | [] => 0
  | eid :: rest =>
    (match heap.get? eid with
      | some e => if e.genID = gid ∧ e.state &&& stateTest = 0 then (e.weight : Int) else 0
      | none => 0) + pendingGhostWeight heap gid rest

/-- Models `genring.New` (src/unnamed/part_006): panics (`none`) unless
`capBytes > 0` and `ttl > 0`; the per-generation budget is
`capBytes / 4`, falling back to `capBytes` when that truncates to zero;
the first generation has id 1 in slot 0 of the four-slot ring. -/
def genringNew (capBytes ttl : Int) : Option GenRing :=
  if capBytes ≤ 0 then none
  else if ttl ≤ 0 then none
  else
    let p := Int.tdiv capBytes 4
    some
      { gens := [some ⟨1, 0⟩, none, none, none]
        activeIdx := 0
        perGenBytes := if p = 0 then capBytes else p
        idCtr := 1 }

/-- Models `Ring.Active` (src/unnamed/part_006): the generation in the active
slot; `none` models the nil dereference were the slot empty. -/
def grActive (gr : GenRing) : Option Gen :=
  match gr.gens.get? gr.activeIdx with
  | some (some g) => some g
  | _ => none

/-- Models `Ring.CheckRotationNeeded` (src/unnamed/part_006): add the raw int64
delta to the active generation's accumulator and report whether it now
exceeds the per-generation budget. -/
def checkRotationNeeded (gr : GenRing) (delta : Int) : Option (GenRing × Bool) :=
  match grActive gr with
  | none => none
  | some g =>
    let g2 : Gen := { g with bytes := g.bytes + delta }
    some
      ({ gr with gens := gr.gens.set gr.activeIdx (some g2) },
       decide (g2.bytes > gr.perGenBytes))

/-- Models `Ring.Rotate` (src/unnamed/part_006): free (and return) the
generation in the next slot, install a fresh generation with the next id
there, and make it active. -/
def grRotate (gr : GenRing) : GenRing × Option Gen :=
  let nextIdx := (gr.activeIdx + 1) % gr.gens.length
  let dead :=
    match gr.gens.get? nextIdx with
    | some (some g) => some g
    | _ => none
  ({ gr with
     gens := gr.gens.set nextIdx (some ⟨gr.idCtr + 1, 0⟩)
     activeIdx := nextIdx
     idCtr := gr.idCtr + 1 }, dead)

/-- Models `shard.get` (src/pkg/cache.go): fingerprint lookup, a miss (or a
fingerprint collision with a different key) increments `misses`; a hit
increments `hits`, ORs the reference bit into the state byte
(`clockpro.SetReferenced`) and returns a copy of the value; a nil value
pointer on a found entry is reported as a miss after the hit count. -/
def shardGet {K V : Type} [DecidableEq K] (hash : K → Nat) (σ : Shard K V) (key : K) :
    Shard K V × Option V :=
  match idxLookup σ (hash key) with
  | none => ({ σ with misses := σ.misses + 1 }, none)
  | some eid =>
    match σ.heap.get? eid with
    | none => ({ σ with misses := σ.misses + 1 }, none)
    | some e =>
      if e.key ≠ key then ({ σ with misses := σ.misses + 1 }, none)
      else
        let σ2 : Shard K V :=
          { σ with
            hits := σ.hits + 1
            heap := σ.heap.set eid { e with state := e.state ||| refBit } }
        match e.vptr with
        | none => (σ2, none)
        | some v => (σ2, some v)

/-- Models `shard.rotate` (src/pkg/cache.go): rotate the generation ring; when a
generation was freed, notify CLOCK-Pro via `GenerationEvicted`.  `none`
models the nil dereference after `close`. -/
def shardRotate {K V : Type} (σ : Shard K V) : Option (Shard K V) :=
  match σ.genRing with
  | none => none
  | some gr =>
    let rot := grRotate gr
    match rot.2 with
    | none => some { σ with genRing := some rot.1 }
    | some dead =>
      match σ.clock with
      | none => none
      | some ck =>
        let ge := generationEvicted σ.heap ck.ring ck.size dead.id
        some
          { σ with
            genRing := some rot.1
            heap := ge.1
            clock := some { ck with size := ge.2 } }

/-- Slow path of `shard.put` (src/pkg/cache.go), taken under the writer
lock when no matching entry exists: read the active generation (nil
dereference = `none` after `close`), allocate the value there, build a
fresh COLD+referenced entry, assign it into the index (a nil-map write
panics), register it with CLOCK-Pro (`Clock.Insert`, which may run the
eviction loop), then add the raw int64 weight to the generation
accumulator (`CheckRotationNeeded`) and rotate if the budget is exceeded.
The second component is the list of eviction-callback invocations. -/
def shardPutSlow {K V : Type} [DecidableEq K] (hash : K → Nat) (σ : Shard K V)
    (key : K) (val : V) (weight : Int) : Option (Shard K V × List (K × V × Nat)) :=
  match σ.genRing with
  | none => none
  | some gr =>
    match grActive gr with
    | none => none
    | some gen =>
      match σ.index with
      | none => none
      | some idx =>
        match σ.clock with
        | none => none
        | some ck =>
          match clockInsert
              (σ.heap ++
                [{ h := hash key, vptr := some val, key := key,
                   weight := u32 weight, genID := gen.id,
                   state := stateCold ||| refBit }])
              ck (BoxedEntry.typedPtr σ.heap.length) with
          | none => none
          | some (heap2, ck2, evs) =>
            match checkRotationNeeded gr weight with
            | none => none
            | some (gr2, need) =>
              if need then
                match shardRotate
                    { σ with
                      heap := heap2,
                      index := some (aset idx (hash key) σ.heap.length),
                      clock := some ck2, genRing := some gr2 } with
                | none => none
                | some σ3 => some (σ3, evs)
              else
                some
                  ({ σ with
                     heap := heap2,
                     index := some (aset idx (hash key) σ.heap.length),
                     clock := some ck2, genRing := some gr2 }, evs)

/-- Models `shard.put` (src/pkg/cache.go).  Fast path under the read lock:
when the index already holds an entry with this fingerprint and an equal
key, overwrite its value pointer (fresh allocation in the active
generation), store the truncated `uint32` weight and the active
generation id — nothing else is touched.  Otherwise fall through to the
slow insert path. -/
def shardPut {K V : Type} [DecidableEq K] (hash : K → Nat) (σ : Shard K V)
    (key : K) (val : V) (weight : Int) : Option (Shard K V × List (K × V × Nat)) :=
  match idxLookup σ (hash key) with
  | some eid =>
    match σ.heap.get? eid with
    | some e =>
      if e.key = key then
        match σ.genRing with
        | none => none
        | some gr =>
          match grActive gr with
          | none => none
          | some gen =>
            some
              ({ σ with
                 heap := σ.heap.set eid
                   { e with vptr := some val, weight := u32 weight, genID := gen.id } }, [])
      else shardPutSlow hash σ key val weight
    | none => shardPutSlow hash σ key val weight
  | none => shardPutSlow hash σ key val weight

/-- Models `shard.delete` (src/pkg/cache.go): when the fingerprint is present
and the keys match, remove the index binding, detach the node from
CLOCK-Pro (`Clock.Remove`, whose typed-pointer argument makes the source
panic on any non-empty ring) and increment `evictions`; otherwise a no-op
(also after `close`: reading a nil map just misses, while a found entry
with a nil clock would panic). -/
def shardDelete {K V : Type} [DecidableEq K] (hash : K → Nat) (σ : Shard K V)
    (key : K) : Option (Shard K V) :=
  match idxLookup σ (hash key) with
  | none => some σ
  | some eid =>
    match σ.heap.get? eid with
    | none => some σ
    | some e =>
      if e.key = key then
        match σ.clock with
        | none => none
        | some ck =>
          match clockRemove σ.heap ck (BoxedEntry.typedPtr eid) with
          | none => none
          | some ck2 =>
            some
              { σ with
                index := σ.index.map (fun idx => aerase idx (hash key))
                clock := some ck2
                evictions := σ.evictions + 1 }
      else some σ

/-- Models `shard.getOrLoad` (src/unnamed/part_001), with an extra ghost flag
recording whether the user loader was invoked.  On a hit the value is
returned with no error; on a miss the shard calls `loader(ctx, key)`
directly — the singleflight `loaderGroup` of src/unnamed/part_000 is never
consulted, and the loaded value is never stored. -/
def shardGetOrLoadT {K V E : Type} [DecidableEq K] (hash : K → Nat) (σ : Shard K V)
    (key : K) (loader : K → Except E V) : Except E V × Shard K V × Bool :=
  match shardGet hash σ key with
  | (σ2, some v) => (Except.ok v, σ2, false)
  | (σ2, none) => (loader key, σ2, true)

/-- Models `shard.getOrLoad` proper (the ghost flag dropped). -/
def shardGetOrLoad {K V E : Type} [DecidableEq K] (hash : K → Nat) (σ : Shard K V)
    (key : K) (loader : K → Except E V) : Except E V × Shard K V :=
  let r := shardGetOrLoadT hash σ key loader
  (r.1, r.2.1)

/-- Models `shard.len` (src/pkg/cache.go): the index size; 0 after `close`. -/
def shardLen {K V : Type} (σ : Shard K V) : Nat :=
  match σ.index with
  | none => 0
  | some idx => idx.length

/-- Models `shard.sizeBytes` (src/unnamed/part_001): sum of the int64-widened
entry weights over the index; 0 after `close`. -/
def shardSizeBytes {K V : Type} (σ : Shard K V) : Int :=
  match σ.index with
  | none => 0
  | some idx =>
    (idx.map (fun b =>
      match σ.heap.get? b.2 with
      | some e => (e.weight : Int)
      | none => 0)).sum

/-- Models `shard.close` (src/unnamed/part_001): sets the index, the CLOCK-Pro
supervisor and the generation ring to nil. -/
def shardClose {K V : Type} (σ : Shard K V) : Shard K V :=
  { σ with index := none, clock := none, genRing := none }

/-- Models `newShard` (src/pkg/cache.go): fresh empty index, a CLOCK-Pro clock
with the per-shard byte budget, and a new generation ring (whose
constructor panics on a non-positive budget). -/
def newShard {K V : Type} (capBytes ttl : Int) (hasCb : Bool) : Option (Shard K V) :=
  match genringNew capBytes ttl with
  | none => none
  | some gr =>
    some
      { heap := []
        index := some []
        clock := some { ring := [], size := 0, capacity := capBytes, hasEjectCb := hasCb }
        genRing := some gr
        hits := 0, misses := 0, evictions := 0 }

/-- Models `defaultWeightFn` (src/pkg/config.go), with the in-memory size of V as
a parameter: clamps a non-positive size to 1. -/
def defaultWeightFn (sizeofV : Int) : Int :=
  if sizeofV ≤ 0 then 1 else sizeofV

/-- Models `New` (src/pkg/cache.go): validates `capBytes > 0`, `ttl > 0` and
`shards` a non-zero power of two (returning the corresponding error
otherwise; `applyOptions` re-checks the same three conditions, which
already hold), then builds `shards` shards each with budget
`capBytes / int64(shards)` (truncated division).  `panicked` models the
panic raised by `genring.New` when that budget is not positive. -/
def cacheNew (K V : Type) (capBytes ttl : Int) (shards : Nat) (hasCb : Bool) :
    NewResult K V :=
  if capBytes ≤ 0 then NewResult.err "capacity bytes must be > 0"
  else if ttl ≤ 0 then NewResult.err "ttl must be > 0"
  else if shards = 0 ∨ shards &&& (shards - 1) ≠ 0 then
    NewResult.err "shards must be power-of-two and > 0"
  else
    match newShard (K := K) (V := V) (Int.tdiv capBytes shards) ttl hasCb with
    | none => NewResult.panicked
    | some s => NewResult.ok ⟨List.replicate shards s⟩

/-- Models `Cache.Close` (src/pkg/cache.go): `shard.close` on every shard. -/
def cacheClose {K V : Type} (c : CacheM K V) : CacheM K V :=
  ⟨c.shards.map shardClose⟩

/-- Models `Cache.shardIndex` (src/pkg/cache.go): key hash modulo the shard
count. -/
def cacheShardIndex {K V : Type} (hash : K → Nat) (c : CacheM K V) (key : K) : Nat :=
  hash key % c.shards.length

/-- Models `Cache.Put` (src/pkg/cache.go): delegate to the key's shard. -/
def cachePut {K V : Type} [DecidableEq K] (hash : K → Nat) (c : CacheM K V)
    (key : K) (val : V) (weight : Int) : Option (CacheM K V × List (K × V × Nat)) :=
  let i := cacheShardIndex hash c key
  match c.shards.get? i with
  | none => none
  | some σ =>
    match shardPut hash σ key val weight with
    | none => none
    | some (σ2, evs) => some (⟨c.shards.set i σ2⟩, evs)

/-- Models `Cache.GetOrLoad` (src/pkg/cache.go): delegate to the key's shard,
with the same ghost flag as `shardGetOrLoadT`. -/
def cacheGetOrLoad {K V E : Type} [DecidableEq K] (hash : K → Nat) (c : CacheM K V)
    (key : K) (loader : K → Except E V) : Option (Except E V × CacheM K V × Bool) :=
  let i := cacheShardIndex hash c key
  match c.shards.get? i with
  | none => none
  | some σ =>
    let r := shardGetOrLoadT hash σ key loader
    some (r.1, ⟨c.shards.set i r.2.1⟩, r.2.2)

/-- Models `Cache.Len` (src/pkg/cache.go): total index size over the shards. -/
def cacheLen {K V : Type} (c : CacheM K V) : Nat :=
  (c.shards.map shardLen).sum

/-- Models `Cache.SizeBytes` (src/pkg/cache.go): total weight over the shards. -/
def cacheSizeBytes {K V : Type} (c : CacheM K V) : Int :=
  (c.shards.map shardSizeBytes).sum

/-- Shard-level delete lifted to the cache, as the inspector tooling calls
it: delegate to the key's shard. -/
def cacheDelete {K V : Type} [DecidableEq K] (hash : K → Nat) (c : CacheM K V)
    (key : K) : Option (CacheM K V) :=
  let i := cacheShardIndex hash c key
  match c.shards.get? i with
  | none => none
  | some σ =>
    match shardDelete hash σ key with
    | none => none
    | some σ2 => some ⟨c.shards.set i σ2⟩

/-!  Helper lemmas about the list-backed heap and the index. -/

theorem lget_lt_length {α : Type} {l : List α} {j : Nat} {a : α}
    (h : l.get? j = some a) : j < l.length := by
  by_contra hle
  rw [List.get?_eq_none.mpr (Nat.le_of_not_lt hle)] at h
  exact Option.noConfusion h

theorem lget_set_self {α : Type} {l : List α} {j : Nat} (a : α)
    (h : j < l.length) : (l.set j a).get? j = some a :=
  List.get?_set_eq_of_lt a h

theorem lget_set_ne {α : Type} (l : List α) {i j : Nat} (a : α)
    (h : i ≠ j) : (l.set i a).get? j = l.get? j :=
  List.get?_set_ne a l h

/-- Heap slots not visited by the sweep are untouched. -/
theorem genEvictGo_get_notmem {K V : Type} (gid : Nat) :
    ∀ (ring : List Nat) (heap : List (Entry K V)) (size : Int) (i : Nat), i ∉ ring →
      (genEvictGo gid ring heap size).1.get? i = heap.get? i := by
  intro ring
  induction ring with
  | nil => intro heap size i _; rfl
  | cons eid rest ih =>
    intro heap size i hi
    have hne : eid ≠ i := fun hcontr => hi (hcontr ▸ List.mem_cons_self eid rest)
    have hrest : i ∉ rest := fun hcontr => hi (List.mem_cons_of_mem eid hcontr)
    match hheap : heap.get? eid with
    | none =>
      simp only [genEvictGo, hheap]
      exact ih heap size i hrest
    | some e =>
      simp only [genEvictGo, hheap]
      by_cases hc : e.genID = gid ∧ e.state &&& stateTest = 0
      · rw [if_pos hc, ih _ _ i hrest, lget_set_ne _ _ hne]
      · rw [if_neg hc]
        exact ih heap size i hrest

/-- Pointwise effect of the sweep: a visited slot whose entry points at
the freed generation and is not yet TEST becomes TEST; every other visited
slot is unchanged. -/
theorem genEvictGo_get {K V : Type} (gid : Nat) :
    ∀ (ring : List Nat) (heap : List (Entry K V)) (size : Int), ring.Nodup →
      ∀ i ∈ ring,
      (genEvictGo gid ring heap size).1.get? i
        = (heap.get? i).map (fun e =>
            if e.genID = gid ∧ e.state &&& stateTest = 0 then { e with state := stateTest } else e) := by
  intro ring
  induction ring with
  | nil => intro heap size _ i hi; exact absurd hi (List.not_mem_nil i)
  | cons eid rest ih =>
    intro heap size hnd i hi
    have hnd2 := List.nodup_cons.mp hnd
    match hheap : heap.get? eid with
    | none =>
      simp only [genEvictGo, hheap]
      rcases List.mem_cons.mp hi with rfl | hir
      · rw [genEvictGo_get_notmem gid rest heap size i hnd2.1, hheap]
        rfl
      · exact ih heap size hnd2.2 i hir
    | some e =>
      simp only [genEvictGo, hheap]
      by_cases hc : e.genID = gid ∧ e.state &&& stateTest = 0
      · rw [if_pos hc]
        rcases List.mem_cons.mp hi with rfl | hir
        · rw [genEvictGo_get_notmem gid rest _ _ i hnd2.1,
            lget_set_self _ (lget_lt_length hheap), hheap]
          simp [hc]
        · have hne : eid ≠ i := fun hcontr => hnd2.1 (hcontr ▸ hir)
          rw [ih _ _ hnd2.2 i hir, lget_set_ne _ _ hne]
      · rw [if_neg hc]
        rcases List.mem_cons.mp hi with rfl | hir
        · rw [genEvictGo_get_notmem gid rest heap size i hnd2.1, hheap]
          simp [hc]
        · exact ih heap size hnd2.2 i hir

/-- Setting a slot that the traversal does not visit leaves the pending
ghost weight unchanged. -/
theorem pgw_set_notmem {K V : Type} (gid : Nat) (heap : List (Entry K V))
    (j : Nat) (a : Entry K V) :
    ∀ (ring : List Nat), j ∉ ring →
      pendingGhostWeight (heap.set j a) gid ring = pendingGhostWeight heap gid ring := by
  intro ring
  induction ring with
  | nil => intro _; rfl
  | cons eid rest ih =>
    intro hj
    have hne : j ≠ eid := fun hcontr => hj (hcontr ▸ List.mem_cons_self eid rest)
    have hrest : j ∉ rest := fun hcontr => hj (List.mem_cons_of_mem eid hcontr)
    simp only [pendingGhostWeight, lget_set_ne _ _ hne, ih hrest]

/-- The sweep subtracts exactly the pending ghost weight from `size`. -/
theorem genEvictGo_size {K V : Type} (gid : Nat) :
    ∀ (ring : List Nat) (heap : List (Entry K V)) (size : Int), ring.Nodup →
      (genEvictGo gid ring heap size).2 = size - pendingGhostWeight heap gid ring := by
  intro ring
  induction ring with
  | nil => intro heap size _; simp [genEvictGo, pendingGhostWeight]
  | cons eid rest ih =>
    intro heap size hnd
    have hnd2 := List.nodup_cons.mp hnd
    match hheap : heap.get? eid with
    | none =>
      simp only [genEvictGo, pendingGhostWeight, hheap, ih heap size hnd2.2]
      omega
    | some e =>
      by_cases hc : e.genID = gid ∧ e.state &&& stateTest = 0
      · simp only [genEvictGo, pendingGhostWeight, hheap, if_pos hc,
          ih _ _ hnd2.2, pgw_set_notmem gid heap eid _ rest hnd2.1]
        omega
      · simp only [genEvictGo, pendingGhostWeight, hheap, if_neg hc, ih heap size hnd2.2]
        omega

/-- When no visited entry still points at the freed generation in a
non-TEST state, the sweep is the identity. -/
theorem genEvictGo_no_pending {K V : Type} (gid : Nat) :
    ∀ (ring : List Nat) (heap : List (Entry K V)) (size : Int),
      (∀ i ∈ ring, ∀ e, heap.get? i = some e →
        ¬(e.genID = gid ∧ e.state &&& stateTest = 0)) →
      genEvictGo gid ring heap size = (heap, size) := by
  intro ring
  induction ring with
  | nil => intro heap size _; rfl
  | cons eid rest ih =>
    intro heap size hno
    match hheap : heap.get? eid with
    | none =>
      simp only [genEvictGo, hheap]
      exact ih heap size (fun i hi e he => hno i (List.mem_cons_of_mem eid hi) e he)
    | some e =>
      simp only [genEvictGo, hheap]
      rw [if_neg (hno eid (List.mem_cons_self eid rest) e hheap)]
      exact ih heap size (fun i hi e2 he => hno i (List.mem_cons_of_mem eid hi) e2 he)

/-- The fast (update) path of `shard.put`: with a matching entry in the
index, the result is exactly the input shard with that one heap slot's
value pointer, weight and generation id overwritten, and no callback
invocations. -/
theorem shardPut_fast {K V : Type} [DecidableEq K] (hash : K → Nat) (σ : Shard K V)
    (k : K) (v : V) (w : Int) (eid : Nat) (e : Entry K V) (gr : GenRing) (gen : Gen)
    (hidx : idxLookup σ (hash k) = some eid)
    (hheap : σ.heap.get? eid = some e)
    (hkey : e.key = k)
    (hgr : σ.genRing = some gr)
    (hact : grActive gr = some gen) :
    shardPut hash σ k v w = some
      ({ σ with
         heap := σ.heap.set eid
           { e with vptr := some v, weight := u32 w, genID := gen.id } }, []) := by
  have hheap2 : σ.heap[eid]? = some e := by
    rw [← List.get?_eq_getElem?]
    exact hheap
  unfold shardPut
  simp [hidx, hheap2, hkey, hgr, hact]

/-- The slow insert path never returns: whatever the shard state, it
either panics on a nil field (after `close`) or reaches
`s.clock.Insert(ent)`, whose `e.(unsafe.Pointer)` assertion fails on the
boxed `*entry[K,V]` and panics before the entry is registered, before any
eviction loop, and before `put` returns. -/
theorem shardPutSlow_none {K V : Type} [DecidableEq K] (hash : K → Nat)
    (σ : Shard K V) (k : K) (v : V) (w : Int) :
    shardPutSlow hash σ k v w = none := by
  unfold shardPutSlow
  match hgr : σ.genRing with
  | none => simp only [hgr]
  | some gr =>
    simp only [hgr]
    match hact : grActive gr with
    | none => simp only [hact]
    | some gen =>
      simp only [hact]
      match hix : σ.index with
      | none => simp only [hix]
      | some idx =>
        simp only [hix]
        match hck : σ.clock with
        | none => simp only [hck]
        | some ck =>
          simp only [hck]
          rfl

/-- A positive-budget shard constructor succeeds with this explicit
shape. -/
theorem newShard_pos {K V : Type} (cap ttl : Int) (cb : Bool)
    (hc : 1 ≤ cap) (ht : 1 ≤ ttl) :
    newShard (K := K) (V := V) cap ttl cb = some
      { heap := [], index := some [],
        clock := some ⟨[], 0, cap, cb⟩,
        genRing := some
          { gens := [some ⟨1, 0⟩, none, none, none], activeIdx := 0,
            perGenBytes := if Int.tdiv cap 4 = 0 then cap else Int.tdiv cap 4,
            idCtr := 1 },
        hits := 0, misses := 0, evictions := 0 } := by
  have h1 : ¬cap ≤ 0 := by omega
  have h2 : ¬ttl ≤ 0 := by omega
  simp [newShard, genringNew, h1, h2]

/-- A non-positive budget makes the shard constructor panic
(`genring.New`). -/
theorem newShard_nonpos {K V : Type} (cap ttl : Int) (cb : Bool)
    (hc : cap ≤ 0) : newShard (K := K) (V := V) cap ttl cb = none := by
  simp [newShard, genringNew, hc]

/-!  Concrete states used to settle claims on explicit inputs.  `idhash`
is an admissible instantiation of the seeded `maphash` for `Nat` keys. -/

/-- Identity hash for `Nat` keys (one possible seeded hash). -/
def idhash : Nat → Nat := fun k => k

/-- Fallback shard, used only as the default of `Option.getD` on runs
that are separately proved to succeed. -/
def emptyShard : Shard Nat Nat := ⟨[], none, none, none, 0, 0, 0⟩

/-- A freshly constructed concrete shard (extracting the `some`). -/
def newShardD (cap ttl : Int) (cb : Bool) : Shard Nat Nat :=
  (newShard cap ttl cb).getD emptyShard

/-- Fresh 64-byte shard without callback. -/
def shard64 : Shard Nat Nat := newShardD 64 1 false

/-- The entry of a hand-built populated shard: key 1 ↦ 99, weight 1,
generation 1, COLD with the reference bit set. -/
def entHit : Entry Nat Nat := ⟨1, some 99, 1, 1, 1, 128⟩

/-- A generation ring holding one generation (id 1, 1 byte recorded). -/
def grHit : GenRing := ⟨[some ⟨1, 1⟩, none, none, none], 0, 16, 1⟩

/-- Hand-built shard state holding key 1 ↦ 99: index, heap and clock ring
populated the way `shard.put`'s insert path writes them (entry in the
index and on the ring, weight counted in `size`).  No completed operation
of the model produces such a state — the insert path always panics inside
`Clock.Insert` — but `get`, `getOrLoad` and the fast update path operate
on whatever state the shard holds, so theorems about them are stated over
such states directly. -/
def shardHit : Shard Nat Nat :=
  { heap := [entHit]
    index := some [(1, 0)]
    clock := some ⟨[0], 1, 64, false⟩
    genRing := some grHit
    hits := 0, misses := 0, evictions := 0 }

/-- Hand-built clock heap for the eviction-loop run: one COLD entry with
reference bit clear, key 1 ↦ 10, weight 1. -/
def c2heap : List (Entry Nat Nat) := [⟨1, some 10, 1, 1, 1, 0⟩]

/-- C1: the spec says `get_or_load` first attempts `get` (true in the
code), and on a miss invokes the loader coordinator and stores a
successful load via `put`.  In the code `shard.getOrLoad` calls the user
loader directly — the singleflight `loaderGroup` is dead code — and never
stores the result: on the concrete fresh shard, the missing key 1 is
loaded (ghost flag `true` = the loader itself ran), the loaded value is
returned, yet the key is still absent from the index and a second `get`
still misses.  On the hand-built populated state `shardHit`, `get`
succeeds first and the loader is not invoked. -/
theorem c1_getOrLoad_bypasses_coordinator_and_put :
    (shardGetOrLoadT (E := Nat) idhash shard64 1 (fun _ => Except.ok 42)).1 = Except.ok 42 ∧
    (shardGetOrLoadT (E := Nat) idhash shard64 1 (fun _ => Except.ok 42)).2.2 = true ∧
    idxLookup (shardGetOrLoadT (E := Nat) idhash shard64 1 (fun _ => Except.ok 42)).2.1
      (idhash 1) = none ∧
    (shardGet idhash (shardGetOrLoadT (E := Nat) idhash shard64 1
      (fun _ => Except.ok 42)).2.1 1).2 = none ∧
    (shardGetOrLoadT (E := Nat) idhash shardHit 1
      (fun _ => Except.ok 42)).1 = Except.ok 99 ∧
    (shardGetOrLoadT (E := Nat) idhash shardHit 1
      (fun _ => Except.ok 42)).2.2 = false := by
  decide

/-- C2: the spec says a COLD entry with reference bit 0 displaced by the
hand fires the ejection callback with `(key, value, Capacity)`.  In the
code `Clock.callEjectCb` never invokes the registered callback (it reads
the value and discards it).  On the hand-built clock state — one COLD
unreferenced entry of weight 1, size 2 over capacity 1, callback
registered — the eviction loop (`Clock.evictIfNeeded`) does displace the
entry (state becomes TEST, size drops to 1), yet the invocation list is
empty; and `callEjectCb` returns no invocation for any input whatsoever.
`Clock.GenerationEvicted` contains no callback call at all, so the
`Generation` reason is likewise never delivered.  (No insert ever reaches
this loop in the program — `Clock.Insert` panics first — but the loop and
`callEjectCb` themselves are embedded verbatim from the source.) -/
theorem c2_eviction_fires_no_callback :
    ((evictIfNeeded c2heap ⟨[0], 2, 1, true⟩).map
      (fun r => (r.2.2, (r.1.get? 0).map (fun e => e.state), r.2.1.size)))
      = some ([], some stateTest, 1) ∧
    (∀ (K V : Type) (b : Bool) (e : Entry K V) (r : Nat), callEjectCb b e r = []) := by
  refine ⟨by decide, ?_⟩
  intro K V b e r
  cases b with
  | false => rfl
  | true =>
    cases hv : e.vptr with
    | none => simp [callEjectCb, hv]
    | some v => simp [callEjectCb, hv]

/-- C3: the spec says every operation after `close()` fails with a
"closed" error.  The code has no such error: after `Cache.Close` (which
nils the index, clock and generation ring of each shard), `GetOrLoad`
silently succeeds by running the loader (no error) — even for key 1,
whose value the hand-built pre-close state held — `Put` panics on the nil
generation ring (modelled `none`), `Len` and `SizeBytes` return 0, and
`delete` is a silent no-op — none of them returns a "closed" error. -/
theorem c3_operations_after_close_do_not_fail_closed :
    ((cacheGetOrLoad (E := Nat) idhash (cacheClose ⟨[shardHit]⟩) 1
        (fun _ => Except.ok 42)).map (fun r => (r.1, r.2.2)))
      = some (Except.ok 42, true) ∧
    cachePut idhash (cacheClose ⟨[shardHit]⟩) 2 5 1 = none ∧
    cacheLen (cacheClose ⟨[shardHit]⟩) = 0 ∧
    cacheSizeBytes (cacheClose ⟨[shardHit]⟩) = 0 ∧
    cacheDelete idhash (cacheClose ⟨[shardHit]⟩) 1
      = some (cacheClose ⟨[shardHit]⟩) := by
  decide

/-- C4: the spec says that after the eviction loop triggered by an insert
(`Clock.Insert`) completes, the non-TEST weight tracked by the shard's
CLOCK-Pro is within capacity.  In the code no insert's eviction loop ever
completes — or even starts: `Clock.Insert` begins with the
`e.(unsafe.Pointer)` type assertion, which fails on the boxed
`*entry[K,V]` its only call site passes, so every insert panics before
the entry is appended, before `size` is updated, and before
`evictIfNeeded` runs.  Concretely, the very first insert on a fresh
capacity-2 shard panics (`none`), and `clockInsert` on a typed-pointer
box is `none` for every heap, clock and slot. -/
theorem c4_insert_panics_before_eviction_loop :
    shardPut idhash (newShardD 2 1 false) 1 10 1 = none ∧
    (∀ (K V : Type) (heap : List (Entry K V)) (ck : Clock) (eid : Nat),
      clockInsert heap ck (BoxedEntry.typedPtr eid) = none) :=
  ⟨by decide, fun _ _ _ _ _ => rfl⟩

/-- C5: the single-flight law says the loader runs at most once per burst
of `get_or_load` calls for the same absent key.  Since `shard.getOrLoad`
neither consults the `loaderGroup` nor stores the loaded value, every
caller that misses runs the loader itself: in the serialized burst of two
calls for absent key 1, the ghost flag is `true` both times (the loader
executed twice) and no call reports a shared result. -/
theorem c5_loader_runs_for_every_missing_caller :
    (shardGetOrLoadT (E := Nat) idhash shard64 1 (fun _ => Except.ok 7)).2.2 = true ∧
    (shardGetOrLoadT (E := Nat) idhash
      (shardGetOrLoadT (E := Nat) idhash shard64 1 (fun _ => Except.ok 7)).2.1 1
      (fun _ => Except.ok 7)).2.2 = true ∧
    (shardGetOrLoadT (E := Nat) idhash
      (shardGetOrLoadT (E := Nat) idhash shard64 1 (fun _ => Except.ok 7)).2.1 1
      (fun _ => Except.ok 7)).1 = Except.ok 7 := by
  decide

/-- C6 counterexample: `New(1, 1, 2)` passes all three validation checks,
yet construction panics: the per-shard budget `1/2` truncates to 0 and
`genring.New` panics on a non-positive capacity — refuting the claim that
every input passing validation yields a cache without panicking. -/
theorem c6_counterexample_valid_input_panics :
    cacheNew Nat Nat 1 1 2 false = NewResult.panicked ∧
    ¬((1 : Int) ≤ 0 ∨ (1 : Int) ≤ 0 ∨ (2 : Nat) = 0 ∨ (2 : Nat) &&& (2 - 1) ≠ 0) := by
  decide

/-- C7 counterexample: `put(1, 10, 0)` on the hand-built populated state
`shardHit` takes the fast update path — a genuine execution of
`shard.put`'s `uint32(weight)` store — and records weight 0, not 1: the
clamp claimed by the spec does not exist on the put path. -/
theorem c7_counterexample_weight_zero_not_clamped :
    ((shardPut idhash shardHit 1 10 0).map
      (fun r => (r.1.heap.get? 0).map (fun e => e.weight))) = some (some 0) ∧
    some (some (0 : Nat)) ≠ some (some 1) := by
  decide

/-- C9: when a shard rotation frees a generation, `Clock.GenerationEvicted`
turns every ring entry of that generation into TEST and subtracts its
weight from `size`, exactly once even if the notification is repeated,
leaving entries of other generations (and unvisited heap slots)
untouched: (1) pointwise, a visited entry pointing at the freed
generation and not yet TEST becomes TEST and nothing else about it
changes, while other visited entries are returned verbatim; (2) slots off
the ring are unchanged; (3) `size` drops by exactly the total weight of
the affected entries; (4) repeating the sweep is the identity. -/
theorem c9_generation_freed_ghosts {K V : Type} (heap : List (Entry K V))
    (ring : List Nat) (size : Int) (gid : Nat) (hnd : ring.Nodup) :
    (∀ i ∈ ring, (generationEvicted heap ring size gid).1.get? i
        = (heap.get? i).map (fun e =>
            if e.genID = gid ∧ e.state &&& stateTest = 0
            then { e with state := stateTest } else e)) ∧
    (∀ i, i ∉ ring → (generationEvicted heap ring size gid).1.get? i = heap.get? i) ∧
    (generationEvicted heap ring size gid).2 = size - pendingGhostWeight heap gid ring ∧
    generationEvicted (generationEvicted heap ring size gid).1 ring
        (generationEvicted heap ring size gid).2 gid
      = generationEvicted heap ring size gid := by
  match ring with
  | [] =>
    refine ⟨?_, fun i _ => rfl, ?_, rfl⟩
    · intro i hi
      exact absurd hi (List.not_mem_nil i)
    · simp [generationEvicted, pendingGhostWeight]
  | a :: t =>
    refine ⟨genEvictGo_get gid (a :: t) heap size hnd,
      fun i hi => genEvictGo_get_notmem gid (a :: t) heap size i hi,
      genEvictGo_size gid (a :: t) heap size hnd, ?_⟩
    show genEvictGo gid (a :: t) (genEvictGo gid (a :: t) heap size).1
        (genEvictGo gid (a :: t) heap size).2 = genEvictGo gid (a :: t) heap size
    rw [genEvictGo_no_pending]
    intro i hi e he
    rw [genEvictGo_get gid (a :: t) heap size hnd i hi] at he
    match h0 : heap.get? i with
    | none =>
      rw [h0] at he
      exact Option.noConfusion he
    | some e0 =>
      rw [h0] at he
      simp only [Option.map_some'] at he
      by_cases hc : e0.genID = gid ∧ e0.state &&& stateTest = 0
      · rw [if_pos hc] at he
        simp only [Option.some.injEq] at he
        subst he
        intro hcontr
        have h2 : stateTest &&& stateTest = 0 := hcontr.2
        exact absurd h2 (by decide)
      · rw [if_neg hc] at he
        simp only [Option.some.injEq] at he
        subst he
        exact hc

/-- Concrete heap for the C9 witness. -/
def c9heap : List (Entry Nat Nat) :=
  [⟨1, some 5, 1, 3, 7, 0⟩, ⟨2, some 6, 2, 4, 9, 0⟩, ⟨3, some 8, 3, 5, 7, 2⟩]

theorem c9_generation_freed_ghosts_witness :
    ([0, 1, 2] : List Nat).Nodup ∧
    ((∀ i ∈ ([0, 1, 2] : List Nat), (generationEvicted c9heap [0, 1, 2] 12 7).1.get? i
        = (c9heap.get? i).map (fun e =>
            if e.genID = 7 ∧ e.state &&& stateTest = 0
            then { e with state := stateTest } else e)) ∧
    (∀ i, i ∉ ([0, 1, 2] : List Nat) →
      (generationEvicted c9heap [0, 1, 2] 12 7).1.get? i = c9heap.get? i) ∧
    (generationEvicted c9heap [0, 1, 2] 12 7).2
        = 12 - pendingGhostWeight c9heap 7 [0, 1, 2] ∧
    generationEvicted (generationEvicted c9heap [0, 1, 2] 12 7).1 [0, 1, 2]
        (generationEvicted c9heap [0, 1, 2] 12 7).2 7
      = generationEvicted c9heap [0, 1, 2] 12 7) :=
  ⟨by decide, c9_generation_freed_ghosts c9heap [0, 1, 2] 12 7 (by decide)⟩

/-- C6 (amended): `New` returns an error iff validation fails
(`capBytes ≤ 0`, `ttl ≤ 0`, or `shards` zero / not a power of two).  For
validated inputs with `capBytes ≥ shards`, it returns — without panicking
— a cache of exactly `shards` identical shards, each with per-shard
budget `capBytes / shards` (truncated division).  For validated inputs
with `capBytes < shards` (which the claim does not except), the budget
truncates to 0 and construction panics inside `genring.New`. -/
theorem c6_new_validation_amended (K V : Type) (capBytes ttl : Int)
    (shards : Nat) (cb : Bool) (hs : shards < 256) :
    ((∃ msg, cacheNew K V capBytes ttl shards cb = NewResult.err msg) ↔
      (capBytes ≤ 0 ∨ ttl ≤ 0 ∨ shards = 0 ∨ shards &&& (shards - 1) ≠ 0)) ∧
    (¬(capBytes ≤ 0 ∨ ttl ≤ 0 ∨ shards = 0 ∨ shards &&& (shards - 1) ≠ 0) →
      (((shards : Int) ≤ capBytes →
        ∃ σ0 : Shard K V, cacheNew K V capBytes ttl shards cb
            = NewResult.ok ⟨List.replicate shards σ0⟩ ∧
          σ0.clock = some ⟨[], 0, Int.tdiv capBytes shards, cb⟩ ∧
          σ0.index = some [] ∧ σ0.heap = [] ∧ σ0.genRing.isSome = true) ∧
      (capBytes < (shards : Int) →
        cacheNew K V capBytes ttl shards cb = NewResult.panicked))) := by
  by_cases h1 : capBytes ≤ 0
  · refine ⟨?_, fun hval => absurd (Or.inl h1) hval⟩
    simp [cacheNew, h1]
  by_cases h2 : ttl ≤ 0
  · refine ⟨?_, fun hval => absurd (Or.inr (Or.inl h2)) hval⟩
    simp [cacheNew, h1, h2]
  by_cases h3 : shards = 0 ∨ shards &&& (shards - 1) ≠ 0
  · refine ⟨?_, fun hval => absurd (Or.inr (Or.inr h3)) hval⟩
    simp [cacheNew, h1, h2, h3]
  · have hns : shards ≠ 0 := fun hc => h3 (Or.inl hc)
    refine ⟨?_, fun _ => ⟨?_, ?_⟩⟩
    · constructor
      · rintro ⟨msg, hmsg⟩
        simp only [cacheNew, if_neg h1, if_neg h2, if_neg h3] at hmsg
        match hsh : newShard (K := K) (V := V) (Int.tdiv capBytes shards) ttl cb with
        | none => rw [hsh] at hmsg; exact absurd hmsg (by simp)
        | some s => rw [hsh] at hmsg; exact absurd hmsg (by simp)
      · intro hc
        exact absurd hc (by tauto)
    · intro hle
      have hbudget : 1 ≤ Int.tdiv capBytes shards := by
        have hm : capBytes = ((capBytes.toNat : Nat) : Int) :=
          (Int.toNat_of_nonneg (by omega)).symm
        rw [hm, ← Int.ofNat_tdiv]
        have hx : shards ≤ capBytes.toNat := by omega
        exact_mod_cast (Nat.one_le_div_iff (by omega)).mpr hx
      refine ⟨{ heap := [],
                index := some [],
                clock := some ⟨[], 0, Int.tdiv capBytes shards, cb⟩,
                genRing := some
                  { gens := [some ⟨1, 0⟩, none, none, none], activeIdx := 0,
                    perGenBytes :=
                      if Int.tdiv (Int.tdiv capBytes shards) 4 = 0
                      then Int.tdiv capBytes shards
                      else Int.tdiv (Int.tdiv capBytes shards) 4,
                    idCtr := 1 },
                hits := 0, misses := 0, evictions := 0 }, ?_, rfl, rfl, rfl, rfl⟩
      simp only [cacheNew, if_neg h1, if_neg h2, if_neg h3]
      rw [newShard_pos _ _ _ hbudget (by omega)]
    · intro hlt
      have hz : Int.tdiv capBytes shards = 0 := by
        have hm : capBytes = ((capBytes.toNat : Nat) : Int) :=
          (Int.toNat_of_nonneg (by omega)).symm
        rw [hm, ← Int.ofNat_tdiv]
        have hx : capBytes.toNat < shards := by omega
        exact_mod_cast Nat.div_eq_of_lt hx
      simp only [cacheNew, if_neg h1, if_neg h2, if_neg h3]
      rw [newShard_nonpos _ _ _ (le_of_eq hz)]

theorem c6_new_validation_amended_witness :
    (2 : Nat) < 256 ∧
    (((∃ msg, cacheNew Nat Nat 8 5 2 false = NewResult.err msg) ↔
      ((8 : Int) ≤ 0 ∨ (5 : Int) ≤ 0 ∨ (2 : Nat) = 0 ∨ (2 : Nat) &&& (2 - 1) ≠ 0)) ∧
    (¬((8 : Int) ≤ 0 ∨ (5 : Int) ≤ 0 ∨ (2 : Nat) = 0 ∨ (2 : Nat) &&& (2 - 1) ≠ 0) →
      ((((2 : Nat) : Int) ≤ 8 →
        ∃ σ0 : Shard Nat Nat, cacheNew Nat Nat 8 5 2 false
            = NewResult.ok ⟨List.replicate 2 σ0⟩ ∧
          σ0.clock = some ⟨[], 0, Int.tdiv 8 2, false⟩ ∧
          σ0.index = some [] ∧ σ0.heap = [] ∧ σ0.genRing.isSome = true) ∧
      ((8 : Int) < ((2 : Nat) : Int) →
        cacheNew Nat Nat 8 5 2 false = NewResult.panicked)))) :=
  ⟨by decide, c6_new_validation_amended Nat Nat 8 5 2 false (by decide)⟩

/-- C7 (amended): the fast update path — the only put path that ever
completes — records the caller's weight truncated to `uint32` with no
clamping: weight 0 is recorded as 0 and weight -1 wraps to 4294967295.
The slow insert path builds its entry with the same unclamped
`uint32(weight)` but always panics inside `Clock.Insert` before any
accounting uses it.  The only clamp in the code is `defaultWeightFn`
clamping its own non-positive size estimate to 1 — a function the core
never applies, since `getOrLoad` never stores. -/
theorem c7_weight_recorded_unclamped {K V : Type} [DecidableEq K]
    (hash : K → Nat) (σ : Shard K V) (k : K) (v : V) (w : Int)
    (eid : Nat) (e : Entry K V) (gr : GenRing) (gen : Gen)
    (hidx : idxLookup σ (hash k) = some eid)
    (hheap : σ.heap.get? eid = some e)
    (hkey : e.key = k)
    (hgr : σ.genRing = some gr)
    (hact : grActive gr = some gen) :
    (∃ σr, shardPut hash σ k v w = some (σr, []) ∧
      σr.heap.get? eid = some { e with vptr := some v, weight := u32 w, genID := gen.id }) ∧
    u32 0 = 0 ∧ u32 (-1) = 4294967295 ∧
    (∀ (hash2 : K → Nat) (σ2 : Shard K V) (k2 : K) (v2 : V) (w2 : Int),
      shardPutSlow hash2 σ2 k2 v2 w2 = none) ∧
    (∀ z : Int, z ≤ 0 → defaultWeightFn z = 1) := by
  refine ⟨⟨_, shardPut_fast hash σ k v w eid e gr gen hidx hheap hkey hgr hact,
    lget_set_self _ (lget_lt_length hheap)⟩, by decide, by decide,
    fun hash2 σ2 k2 v2 w2 => shardPutSlow_none hash2 σ2 k2 v2 w2, ?_⟩
  intro z hz
  simp [defaultWeightFn, hz]

theorem c7_weight_recorded_unclamped_witness :
    (idxLookup shardHit (idhash 1) = some 0 ∧
     shardHit.heap.get? 0 = some entHit ∧
     entHit.key = 1 ∧
     shardHit.genRing = some grHit ∧
     grActive grHit = some ⟨1, 1⟩) ∧
    ((∃ σr, shardPut idhash shardHit 1 10 0 = some (σr, []) ∧
      σr.heap.get? 0 = some { entHit with vptr := some 10, weight := u32 0, genID := (⟨1, 1⟩ : Gen).id }) ∧
    u32 0 = 0 ∧ u32 (-1) = 4294967295 ∧
    (∀ (hash2 : Nat → Nat) (σ2 : Shard Nat Nat) (k2 : Nat) (v2 : Nat) (w2 : Int),
      shardPutSlow hash2 σ2 k2 v2 w2 = none) ∧
    (∀ z : Int, z ≤ 0 → defaultWeightFn z = 1)) :=
  ⟨⟨by decide, by decide, by decide, by decide, by decide⟩,
   c7_weight_recorded_unclamped idhash shardHit 1 10 0 0 entHit grHit ⟨1, 1⟩
     (by decide) (by decide) (by decide) (by decide) (by decide)⟩

/-- C8: the spec's round-trip law says `put(k, v, w); get(k)` returns
`Some(v)`.  In the code no fresh-key put ever returns: the slow insert
path reaches `s.clock.Insert(ent)`, whose `e.(unsafe.Pointer)` type
assertion fails on the boxed `*entry[K,V]` and panics, so
`put(5, 42, 1); get(5)` on a fresh shard crashes instead of producing
`Some 42`.  The slow path is `none` for every shard state, key, value and
weight, and concretely key 5 is absent from the fresh shard so its put
takes that path and panics. -/
theorem c8_put_panics_before_get :
    (∀ (hash : Nat → Nat) (σ : Shard Nat Nat) (k v : Nat) (w : Int),
      shardPutSlow hash σ k v w = none) ∧
    idxLookup shard64 (idhash 5) = none ∧
    shardPut idhash shard64 5 42 1 = none :=
  ⟨fun hash σ k v w => shardPutSlow_none hash σ k v w, by decide, by decide⟩

/-- C10: a `put` whose key already has a matching index entry takes the
fast update path: only that entry's value pointer, weight (truncated to
`uint32`) and generation id change; the entry keeps its state byte, key
and fingerprint, it stays in the index under the same fingerprint, every
other heap slot is untouched, and the index, the CLOCK-Pro clock (ring,
size, hand, capacity), the generation ring (including its byte
accumulators — no rotation check) and the hit/miss/eviction counters are
all unchanged, with no callback invocations. -/
theorem c10_update_path_frame {K V : Type} [DecidableEq K] (hash : K → Nat)
    (σ : Shard K V) (k : K) (v : V) (w : Int) (eid : Nat) (e : Entry K V)
    (gr : GenRing) (gen : Gen)
    (hidx : idxLookup σ (hash k) = some eid)
    (hheap : σ.heap.get? eid = some e)
    (hkey : e.key = k)
    (hgr : σ.genRing = some gr)
    (hact : grActive gr = some gen) :
    ∃ σ2, shardPut hash σ k v w = some (σ2, []) ∧
      σ2.heap = σ.heap.set eid
        { e with vptr := some v, weight := u32 w, genID := gen.id } ∧
      σ2.heap.get? eid = some
        { e with vptr := some v, weight := u32 w, genID := gen.id } ∧
      (∀ j, j ≠ eid → σ2.heap.get? j = σ.heap.get? j) ∧
      σ2.index = σ.index ∧ σ2.clock = σ.clock ∧ σ2.genRing = σ.genRing ∧
      σ2.hits = σ.hits ∧ σ2.misses = σ.misses ∧ σ2.evictions = σ.evictions ∧
      ({ e with vptr := some v, weight := u32 w, genID := gen.id } : Entry K V).state
          = e.state ∧
      ({ e with vptr := some v, weight := u32 w, genID := gen.id } : Entry K V).key
          = e.key ∧
      ({ e with vptr := some v, weight := u32 w, genID := gen.id } : Entry K V).h
          = e.h := by
  refine ⟨_, shardPut_fast hash σ k v w eid e gr gen hidx hheap hkey hgr hact,
    rfl, lget_set_self _ (lget_lt_length hheap), ?_,
    rfl, rfl, rfl, rfl, rfl, rfl, rfl, rfl, rfl⟩
  intro j hj
  exact lget_set_ne _ _ (fun hc => hj hc.symm)

/-- The entry key 3 occupies in `shardW10`. -/
def entW10 : Entry Nat Nat := ⟨3, some 30, 3, 1, 1, 128⟩

/-- The generation ring of `shardW10`. -/
def grW10 : GenRing := ⟨[some ⟨1, 1⟩, none, none, none], 0, 16, 1⟩

/-- Hand-built concrete shard for the C10 witness, holding key 3 ↦ 30 in
its index, heap and clock ring (as with `shardHit`, no completed
operation reaches such a state because the insert path panics; the fast
update path acts on whatever state the shard holds). -/
def shardW10 : Shard Nat Nat :=
  { heap := [entW10]
    index := some [(3, 0)]
    clock := some ⟨[0], 1, 64, false⟩
    genRing := some grW10
    hits := 0, misses := 0, evictions := 0 }

theorem c10_update_path_frame_witness :
    (idxLookup shardW10 (idhash 3) = some 0 ∧
     shardW10.heap.get? 0 = some entW10 ∧
     entW10.key = 3 ∧
     shardW10.genRing = some grW10 ∧
     grActive grW10 = some ⟨1, 1⟩) ∧
    (∃ σ2, shardPut idhash shardW10 3 31 5 = some (σ2, []) ∧
      σ2.heap = shardW10.heap.set 0
        { entW10 with vptr := some 31, weight := u32 5, genID := (⟨1, 1⟩ : Gen).id } ∧
      σ2.heap.get? 0 = some
        { entW10 with vptr := some 31, weight := u32 5, genID := (⟨1, 1⟩ : Gen).id } ∧
      (∀ j, j ≠ 0 → σ2.heap.get? j = shardW10.heap.get? j) ∧
      σ2.index = shardW10.index ∧ σ2.clock = shardW10.clock ∧
      σ2.genRing = shardW10.genRing ∧
      σ2.hits = shardW10.hits ∧ σ2.misses = shardW10.misses ∧
      σ2.evictions = shardW10.evictions ∧
      ({ entW10 with vptr := some 31, weight := u32 5, genID := (⟨1, 1⟩ : Gen).id } : Entry Nat Nat).state = entW10.state ∧
      ({ entW10 with vptr := some 31, weight := u32 5, genID := (⟨1, 1⟩ : Gen).id } : Entry Nat Nat).key = entW10.key ∧
      ({ entW10 with vptr := some 31, weight := u32 5, genID := (⟨1, 1⟩ : Gen).id } : Entry Nat Nat).h = entW10.h) :=
  ⟨⟨by decide, by decide, by decide, by decide, by decide⟩,
   c10_update_path_frame idhash shardW10 3 31 5 0 entW10 grW10 ⟨1, 1⟩
     (by decide) (by decide) (by decide) (by decide) (by decide)⟩

end ArenaCache
